import Mathlib

/-!
Verification of the ReaRead gaze estimation and calibration pipeline.

The definitions below are a shallow embedding of the pipeline code:

* the per-frame estimator MediaPipeTracker.handleGazeData and the linear
  per-axis MediaPipeTracker.applyCalibration (src/eye/MediaPipeTracker.ts);
* the affine fitter variant of applyCalibration together with
  useDefaultCalibration (docs/feature_map.md);
* the per-point calibration sample capture routine of runCalibration
  (src/popup/App.tsx);
* CalibrationSystem.generateCalibrationGrid and the error computation of
  CalibrationSystem.runValidation.

Numbers are modelled as rationals; division is the total rational division
(x / 0 = 0), matching the source on every code path whose divisor is
nonzero.  Math.sqrt is modelled as Real.sqrt, so quantities produced by it
live in the reals.  Wall-clock timestamps and logging are outside the model.
-/

namespace ReaRead

/-- A 2D point with rational coordinates, used both for normalized image or
gaze coordinates and for screen pixel coordinates. -/
structure Point2 where
  x : ℚ
  y : ℚ
deriving DecidableEq

/-- One landmark frame as delivered to handleGazeData (SandboxGazeData):
the facial landmarks indexed by position, the landmark count, and the two
iris centers, each of which may be missing. -/
structure SandboxGazeData where
  landmarks : ℕ → Point2
  numLandmarks : ℕ
  leftIris : Option Point2
  rightIris : Option Point2

/-- The linear per-axis calibration transform held by MediaPipeTracker in
its calibrationMatrix field. -/
structure LinearCalib where
  scaleX : ℚ
  scaleY : ℚ
  offsetX : ℚ
  offsetY : ℚ
deriving DecidableEq

/-- Output gaze point (GazePoint).  The wall-clock timestamp field is not
modelled. -/
structure GazePoint where
  x : ℚ
  y : ℚ
  confidence : ℚ
  normalizedX : ℚ
  normalizedY : ℚ
deriving DecidableEq

/-- State carried between frames by one MediaPipeTracker instance. -/
structure TrackerState where
  isRunning : Bool
  gazeHistory : List Point2
  eyeHeightHistory : List ℚ
  stableEyeHeight : ℚ
  calibrationMatrix : LinearCalib

/-- SMOOTHING_WINDOW_X. -/
def SMOOTHING_WINDOW_X : ℕ := 8

/-- SMOOTHING_WINDOW_Y. -/
def SMOOTHING_WINDOW_Y : ℕ := 4

/-- EYE_HEIGHT_WINDOW. -/
def EYE_HEIGHT_WINDOW : ℕ := 15

/-- Width of the left eye: distance of the x coordinates of landmarks 133
and 33 (the two corners of the left eye). -/
def leftEyeWidth (d : SandboxGazeData) : ℚ :=
  |(d.landmarks 133).x - (d.landmarks 33).x|

/-- Width of the right eye: distance of the x coordinates of landmarks 263
and 362. -/
def rightEyeWidth (d : SandboxGazeData) : ℚ :=
  |(d.landmarks 263).x - (d.landmarks 362).x|

/-- Average of the two eye widths. -/
def avgEyeWidth (d : SandboxGazeData) : ℚ :=
  (leftEyeWidth d + rightEyeWidth d) / 2

/-- Height of the left eye: distance of the y coordinates of landmarks 145
(bottom) and 159 (top). -/
def leftEyeHeight (d : SandboxGazeData) : ℚ :=
  |(d.landmarks 145).y - (d.landmarks 159).y|

/-- Height of the right eye: distance of the y coordinates of landmarks 374
(bottom) and 386 (top). -/
def rightEyeHeight (d : SandboxGazeData) : ℚ :=
  |(d.landmarks 374).y - (d.landmarks 386).y|

/-- Average of the two eye heights for the current frame. -/
def currentEyeHeight (d : SandboxGazeData) : ℚ :=
  (leftEyeHeight d + rightEyeHeight d) / 2

/-- Eye aspect ratio used by the blink gate: average height over average
width. -/
def aspectRatio (d : SandboxGazeData) : ℚ :=
  currentEyeHeight d / avgEyeWidth d

/-- Push a value onto a trailing history buffer and shift the oldest entry
out when the buffer exceeds the window, exactly as the push / shift pairs
in handleGazeData. -/
def pushBounded {α : Type} (window : ℕ) (hist : List α) (v : α) : List α :=
  let h := hist ++ [v]
  if window < h.length then h.tail else h

/-- The last n entries of a list, as Array.slice with a negative start
index returns them. -/
def lastN {α : Type} (n : ℕ) (l : List α) : List α :=
  l.drop (l.length - n)

/-- Arithmetic mean of a list of rationals (a reduce of the sum divided by
the length). -/
def listMean (l : List ℚ) : ℚ :=
  l.sum / l.length

/-- Smoothed X output: mean over the most recent SMOOTHING_WINDOW_X
buffered x coordinates. -/
def smoothedX (hist : List Point2) : ℚ :=
  listMean ((lastN SMOOTHING_WINDOW_X hist).map Point2.x)

/-- Smoothed Y output: mean over the most recent SMOOTHING_WINDOW_Y
buffered y coordinates. -/
def smoothedY (hist : List Point2) : ℚ :=
  listMean ((lastN SMOOTHING_WINDOW_Y hist).map Point2.y)

/-- Horizontal center of the left eye. -/
def leftEyeCenterX (d : SandboxGazeData) : ℚ :=
  ((d.landmarks 33).x + (d.landmarks 133).x) / 2

/-- Horizontal center of the right eye. -/
def rightEyeCenterX (d : SandboxGazeData) : ℚ :=
  ((d.landmarks 362).x + (d.landmarks 263).x) / 2

/-- Vertical center of the left eye. -/
def leftEyeCenterY (d : SandboxGazeData) : ℚ :=
  ((d.landmarks 159).y + (d.landmarks 145).y) / 2

/-- Vertical center of the right eye. -/
def rightEyeCenterY (d : SandboxGazeData) : ℚ :=
  ((d.landmarks 386).y + (d.landmarks 374).y) / 2

/-- Average horizontal iris offset of the two eyes, each normalized by half
the eye width. -/
def avgIrisOffsetX (d : SandboxGazeData) (li ri : Point2) : ℚ :=
  let leftOff := (li.x - leftEyeCenterX d) / (leftEyeWidth d / 2)
  let rightOff := (ri.x - rightEyeCenterX d) / (rightEyeWidth d / 2)
  (leftOff + rightOff) / 2

/-- Average vertical iris offset of the two eyes, each normalized by half
the eye height. -/
def avgIrisOffsetY (d : SandboxGazeData) (li ri : Point2) : ℚ :=
  let leftOff := (li.y - leftEyeCenterY d) / (leftEyeHeight d / 2)
  let rightOff := (ri.y - rightEyeCenterY d) / (rightEyeHeight d / 2)
  (leftOff + rightOff) / 2

/-- Clamp a value to the closed interval from lo to hi, as the nested
Math.max / Math.min calls do. -/
def clampQ (lo hi v : ℚ) : ℚ :=
  max lo (min hi v)

/-- Map a calibrated normalized coordinate pair to screen pixels: apply the
linear transform, then send the interval from -1 to 1 onto the screen. -/
def toScreen (m : LinearCalib) (sw sh nx ny : ℚ) : ℚ × ℚ :=
  ((nx * m.scaleX + m.offsetX + 1) * (1 / 2) * sw,
   (ny * m.scaleY + m.offsetY + 1) * (1 / 2) * sh)

/-- The GazePoint assembled at the end of a valid frame: smoothed screen
coordinates, the fixed confidence 0.8, and the raw normalized vector. -/
def gazePointOf (hist : List Point2) (nx ny : ℚ) : GazePoint :=
  { x := smoothedX hist, y := smoothedY hist, confidence := 8 / 10,
    normalizedX := nx, normalizedY := ny }

/-- One step of MediaPipeTracker.handleGazeData: validate the frame, apply
the blink gate, update the eye height history, compute the raw normalized
gaze vector, apply the linear calibration, clamp to screen bounds, update
the smoothing history and emit the smoothed GazePoint.  Returns the updated
state together with the emitted point, if any. -/
def handleGazeData (s : TrackerState) (d : SandboxGazeData) (sw sh : ℚ) :
    TrackerState × Option GazePoint :=
  if !s.isRunning then (s, none)
  else if d.numLandmarks < 478 then (s, none)
  else
    match d.leftIris, d.rightIris with
    | some li, some ri =>
      if aspectRatio d < 15 / 100 then (s, none)
      else
        let ehh := pushBounded EYE_HEIGHT_WINDOW s.eyeHeightHistory (currentEyeHeight d)
        let nx := avgIrisOffsetX d li ri
        let ny := avgIrisOffsetY d li ri
        let scr := toScreen s.calibrationMatrix sw sh nx ny
        let g : Point2 := ⟨clampQ 0 sw scr.1, clampQ 0 sh scr.2⟩
        let hist := pushBounded (max SMOOTHING_WINDOW_X SMOOTHING_WINDOW_Y) s.gazeHistory g
        ({ s with gazeHistory := hist, eyeHeightHistory := ehh,
                  stableEyeHeight := listMean ehh },
         some (gazePointOf hist nx ny))
    | _, _ => (s, none)

/-- One calibration input entry for the linear fitter: target screen
position, measured screen position and the optional raw normalized
measurement components. -/
structure CalibInput where
  actualX : ℚ
  actualY : ℚ
  measuredX : ℚ
  measuredY : ℚ
  normalizedX : Option ℚ
  normalizedY : Option ℚ
deriving DecidableEq

/-- A (measured, actual) pair after conversion to normalized coordinates. -/
structure NormPair where
  measuredX : ℚ
  measuredY : ℚ
  actualX : ℚ
  actualY : ℚ
deriving DecidableEq

/-- Conversion step of the linear applyCalibration: targets are mapped from
screen pixels to the interval from -1 to 1; measurements use the raw
normalized component when present and are converted from pixels
otherwise. -/
def normalizePoints (sw sh : ℚ) (points : List CalibInput) : List NormPair :=
  points.map fun p =>
    { actualX := p.actualX / sw * 2 - 1
      actualY := p.actualY / sh * 2 - 1
      measuredX := match p.normalizedX with
        | some v => v
        | none => p.measuredX / sw * 2 - 1
      measuredY := match p.normalizedY with
        | some v => v
        | none => p.measuredY / sh * 2 - 1 }

/-- Mean of the measured x coordinates. -/
def meanMeasuredX (np : List NormPair) : ℚ := listMean (np.map (·.measuredX))

/-- Mean of the measured y coordinates. -/
def meanMeasuredY (np : List NormPair) : ℚ := listMean (np.map (·.measuredY))

/-- Mean of the actual x coordinates. -/
def meanActualX (np : List NormPair) : ℚ := listMean (np.map (·.actualX))

/-- Mean of the actual y coordinates. -/
def meanActualY (np : List NormPair) : ℚ := listMean (np.map (·.actualY))

/-- Least squares numerator for the x axis: sum of the products of the
mean-centered measured and actual x values. -/
def numeratorX (np : List NormPair) : ℚ :=
  (np.map fun p => (p.measuredX - meanMeasuredX np) * (p.actualX - meanActualX np)).sum

/-- Least squares denominator for the x axis: sum of the squared
mean-centered measured x values. -/
def denominatorX (np : List NormPair) : ℚ :=
  (np.map fun p => (p.measuredX - meanMeasuredX np) * (p.measuredX - meanMeasuredX np)).sum

/-- Least squares numerator for the y axis. -/
def numeratorY (np : List NormPair) : ℚ :=
  (np.map fun p => (p.measuredY - meanMeasuredY np) * (p.actualY - meanActualY np)).sum

/-- Least squares denominator for the y axis. -/
def denominatorY (np : List NormPair) : ℚ :=
  (np.map fun p => (p.measuredY - meanMeasuredY np) * (p.measuredY - meanMeasuredY np)).sum

/-- The linear per-axis MediaPipeTracker.applyCalibration: on an empty
sample list it returns without touching the transform; otherwise it
converts all points to normalized coordinates, fits each axis by
least squares on the mean-centered pairs (guarding a zero denominator with
scale 1.0) and installs the resulting four values. -/
def applyCalibration (sw sh : ℚ) (points : List CalibInput) (m : LinearCalib) :
    LinearCalib :=
  if points.length = 0 then m
  else
    let np := normalizePoints sw sh points
    let scaleX := if denominatorX np ≠ 0 then numeratorX np / denominatorX np else 1
    let scaleY := if denominatorY np ≠ 0 then numeratorY np / denominatorY np else 1
    { scaleX := scaleX
      scaleY := scaleY
      offsetX := meanActualX np - scaleX * meanMeasuredX np
      offsetY := meanActualY np - scaleY * meanMeasuredY np }

/-- Affine calibration matrix of the feature-map tracker variant. -/
structure AffineCalib where
  a : ℚ
  b : ℚ
  c : ℚ
  d : ℚ
  tx : ℚ
  ty : ℚ
deriving DecidableEq

/-- Calibration-related state of the affine tracker variant: the active
matrix and the calibrated flag. -/
structure AffineState where
  matrix : AffineCalib
  isCalibrated : Bool
deriving DecidableEq

/-- Calibration input entry for the affine fitter; stdDev is the per-point
sample standard deviation quality signal, when provided. -/
structure AffineInput where
  actualX : ℚ
  actualY : ℚ
  measuredX : ℚ
  measuredY : ℚ
  normalizedX : Option ℚ
  normalizedY : Option ℚ
  stdDev : Option ℚ
deriving DecidableEq

/-- MAX_STDDEV, the outlier filtering threshold in pixels. -/
def MAX_STDDEV : ℚ := 50

/-- Outlier filter of the affine fitter: keep a point when its stdDev is
absent or below MAX_STDDEV.  The source condition also lets a stdDev of 0
pass through falsiness, which is subsumed by 0 being below the
threshold. -/
def goodPoints (points : List AffineInput) : List AffineInput :=
  points.filter fun p =>
    match p.stdDev with
    | none => true
    | some v => decide (v < MAX_STDDEV)

/-- One prepared data row of the affine fitter: normalized iris source
position (0 for an absent component) and actual destination pixels. -/
structure AffineRow where
  srcX : ℚ
  srcY : ℚ
  dstX : ℚ
  dstY : ℚ
deriving DecidableEq

/-- Data preparation step of the affine fitter. -/
def affineData (points : List AffineInput) : List AffineRow :=
  points.map fun p =>
    { srcX := p.normalizedX.getD 0, srcY := p.normalizedY.getD 0,
      dstX := p.actualX, dstY := p.actualY }

/-- Sum of the source x values. -/
def sumX (l : List AffineRow) : ℚ := (l.map (·.srcX)).sum

/-- Sum of the source y values. -/
def sumY (l : List AffineRow) : ℚ := (l.map (·.srcY)).sum

/-- Sum of the squared source x values. -/
def sumXX (l : List AffineRow) : ℚ := (l.map fun p => p.srcX * p.srcX).sum

/-- Sum of the squared source y values. -/
def sumYY (l : List AffineRow) : ℚ := (l.map fun p => p.srcY * p.srcY).sum

/-- Sum of the products of source x and source y. -/
def sumXY (l : List AffineRow) : ℚ := (l.map fun p => p.srcX * p.srcY).sum

/-- Sum of the destination x values. -/
def sumDstX (l : List AffineRow) : ℚ := (l.map (·.dstX)).sum

/-- Sum of the destination y values. -/
def sumDstY (l : List AffineRow) : ℚ := (l.map (·.dstY)).sum

/-- Sum of the products of source x and destination x. -/
def sumXDstX (l : List AffineRow) : ℚ := (l.map fun p => p.srcX * p.dstX).sum

/-- Sum of the products of source y and destination x. -/
def sumYDstX (l : List AffineRow) : ℚ := (l.map fun p => p.srcY * p.dstX).sum

/-- Sum of the products of source x and destination y. -/
def sumXDstY (l : List AffineRow) : ℚ := (l.map fun p => p.srcX * p.dstY).sum

/-- Sum of the products of source y and destination y. -/
def sumYDstY (l : List AffineRow) : ℚ := (l.map fun p => p.srcY * p.dstY).sum

/-- Determinant of the 3x3 normal-equations matrix of the affine fit. -/
def detA (l : List AffineRow) : ℚ :=
  sumXX l * (sumYY l * l.length - sumY l * sumY l)
    - sumXY l * (sumXY l * l.length - sumY l * sumX l)
    + sumX l * (sumXY l * sumY l - sumYY l * sumX l)

/-- Cramer numerator for the coefficient a. -/
def detAa (l : List AffineRow) : ℚ :=
  sumXDstX l * (sumYY l * l.length - sumY l * sumY l)
    - sumXY l * (sumYDstX l * l.length - sumY l * sumDstX l)
    + sumX l * (sumYDstX l * sumY l - sumYY l * sumDstX l)

/-- Cramer numerator for the coefficient b. -/
def detAb (l : List AffineRow) : ℚ :=
  sumXX l * (sumYDstX l * l.length - sumY l * sumDstX l)
    - sumXDstX l * (sumXY l * l.length - sumY l * sumX l)
    + sumX l * (sumXY l * sumDstX l - sumYDstX l * sumX l)

/-- Cramer numerator for the translation tx. -/
def detAtx (l : List AffineRow) : ℚ :=
  sumXX l * (sumYY l * sumDstX l - sumYDstX l * sumY l)
    - sumXY l * (sumXY l * sumDstX l - sumYDstX l * sumX l)
    + sumXDstX l * (sumXY l * sumY l - sumYY l * sumX l)

/-- Cramer numerator for the coefficient c. -/
def detAc (l : List AffineRow) : ℚ :=
  sumXDstY l * (sumYY l * l.length - sumY l * sumY l)
    - sumXY l * (sumYDstY l * l.length - sumY l * sumDstY l)
    + sumX l * (sumYDstY l * sumY l - sumYY l * sumDstY l)

/-- Cramer numerator for the coefficient d. -/
def detAd (l : List AffineRow) : ℚ :=
  sumXX l * (sumYDstY l * l.length - sumY l * sumDstY l)
    - sumXDstY l * (sumXY l * l.length - sumY l * sumX l)
    + sumX l * (sumXY l * sumDstY l - sumYDstY l * sumX l)

/-- Cramer numerator for the translation ty. -/
def detAty (l : List AffineRow) : ℚ :=
  sumXX l * (sumYY l * sumDstY l - sumYDstY l * sumY l)
    - sumXY l * (sumXY l * sumDstY l - sumYDstY l * sumX l)
    + sumXDstY l * (sumXY l * sumY l - sumYY l * sumX l)

/-- Fitted coefficient a. -/
def coefA (l : List AffineRow) : ℚ := detAa l / detA l

/-- Fitted coefficient b. -/
def coefB (l : List AffineRow) : ℚ := detAb l / detA l

/-- Fitted translation tx. -/
def coefTx (l : List AffineRow) : ℚ := detAtx l / detA l

/-- Fitted coefficient c. -/
def coefC (l : List AffineRow) : ℚ := detAc l / detA l

/-- Fitted coefficient d. -/
def coefD (l : List AffineRow) : ℚ := detAd l / detA l

/-- Fitted translation ty. -/
def coefTy (l : List AffineRow) : ℚ := detAty l / detA l

/-- The default calibration matrix installed by useDefaultCalibration: the
iris range constant 0.6 scaled to the screen with a center offset. -/
def defaultCalibration (sw sh : ℚ) : AffineCalib :=
  { a := sw / (6 / 10), b := 0, c := 0, d := sh / (6 / 10),
    tx := sw / 2, ty := sh / 2 }

/-- useDefaultCalibration: install the default matrix and mark the session
as calibrated. -/
def useDefaultCalibration (sw sh : ℚ) (_st : AffineState) : AffineState :=
  { matrix := defaultCalibration sw sh, isCalibrated := true }

/-- Expected effective scale for a typical iris range: screen width over
0.6. -/
def expectedScale (sw : ℚ) : ℚ := sw / (6 / 10)

/-- MAX_SCALE: three times the expected scale. -/
def MAX_SCALE (sw : ℚ) : ℚ := expectedScale sw * 3

/-- MIN_SCALE: a fifth of the expected scale. -/
def MIN_SCALE (sw : ℚ) : ℚ := expectedScale sw / 5

/-- The affine applyCalibration of the feature-map variant: empty input is
a no-op; points are filtered by stdDev; fewer than 4 survivors, a
near-singular normal-equations system, or an implausible effective scale
each fall back to the default matrix; otherwise the fitted matrix is
installed.  The source compares Math.sqrt of the sum of the squares of a
and c against the scale bounds; the embedding compares the squares, which
agrees with the source whenever the screen width is nonnegative. -/
def applyCalibrationAffine (sw sh : ℚ) (points : List AffineInput)
    (st : AffineState) : AffineState :=
  if points.length = 0 then st
  else
    let good := goodPoints points
    if good.length < 4 then useDefaultCalibration sw sh st
    else
      let data := affineData good
      if |detA data| < 1 / 10 ^ 10 then useDefaultCalibration sw sh st
      else
        let a := coefA data
        let b := coefB data
        let c := coefC data
        let d := coefD data
        let tx := coefTx data
        let ty := coefTy data
        if a * a + c * c > MAX_SCALE sw ^ 2 ∨ a * a + c * c < MIN_SCALE sw ^ 2 then
          useDefaultCalibration sw sh st
        else if |d| > MAX_SCALE sw ∨ |d| < MIN_SCALE sw then
          useDefaultCalibration sw sh st
        else
          { matrix := { a := a, b := b, c := c, d := d, tx := tx, ty := ty },
            isCalibrated := true }

/-- Application of an affine calibration matrix to a normalized gaze
sample, as the quality computation of the affine fitter applies it. -/
def applyAffineMap (m : AffineCalib) (x y : ℚ) : ℚ × ℚ :=
  (m.a * x + m.b * y + m.tx, m.c * x + m.d * y + m.ty)

/-- The 3x3 calibration grid of CalibrationSystem.generateCalibrationGrid:
normalized positions 0.15, 0.5 and 0.85 on each axis, scaled by the screen
size. -/
def generateCalibrationGrid (w h : ℚ) : List Point2 :=
  [⟨w * (15 / 100), h * (15 / 100)⟩, ⟨w * (5 / 10), h * (15 / 100)⟩,
   ⟨w * (85 / 100), h * (15 / 100)⟩,
   ⟨w * (15 / 100), h * (5 / 10)⟩, ⟨w * (5 / 10), h * (5 / 10)⟩,
   ⟨w * (85 / 100), h * (5 / 10)⟩,
   ⟨w * (15 / 100), h * (85 / 100)⟩, ⟨w * (5 / 10), h * (85 / 100)⟩,
   ⟨w * (85 / 100), h * (85 / 100)⟩]

/-- The five validation targets of CalibrationSystem.runValidation. -/
def validationPoints (w h : ℚ) : List Point2 :=
  [⟨w * (3 / 10), h * (3 / 10)⟩, ⟨w * (7 / 10), h * (3 / 10)⟩,
   ⟨w * (5 / 10), h * (5 / 10)⟩,
   ⟨w * (3 / 10), h * (7 / 10)⟩, ⟨w * (7 / 10), h * (7 / 10)⟩]

/-- Euclidean pixel error between a validation target and the measured
point, as runValidation computes it. -/
noncomputable def validationError (target measured : Point2) : ℝ :=
  Real.sqrt (((measured.x : ℝ) - (target.x : ℝ)) ^ 2
    + ((measured.y : ℝ) - (target.y : ℝ)) ^ 2)

/-- The average error reported by runValidation: one capture per validation
target, per-target Euclidean error, then the arithmetic mean. -/
noncomputable def runValidationAvgError (w h : ℚ) (capture : Point2 → Point2) : ℝ :=
  let errors := (validationPoints w h).map fun p => validationError p (capture p)
  errors.sum / errors.length

/-- The success verdict reported by runValidation: the average error is
below 100 pixels. -/
def runValidationSuccess (w h : ℚ) (capture : Point2 → Point2) : Prop :=
  runValidationAvgError w h capture < 100

/-- One raw gaze sample read from the tracker stream during per-point
calibration capture (the fields of GazePoint the capture routine uses). -/
structure GSample where
  x : ℚ
  y : ℚ
  normalizedX : Option ℚ
  normalizedY : Option ℚ
deriving DecidableEq, Inhabited

/-- The number of samples collected per calibration point. -/
def sampleCount : ℕ := 50

/-- The number of samples trimmed from each end of each axis ranking:
the floor of 10 percent of sampleCount. -/
def trimCount : ℕ := Nat.floor ((sampleCount : ℚ) * (1 / 10))

/-- Rank of sample i under a stable sort by the given key: the number of
samples that compare strictly below it plus the ties that precede it.
Array.prototype.sort is stable and indexOf compares by object identity, so
this is the index at which sample i lands in the sorted copy. -/
def stableRank (key : ℕ → ℚ) (n i : ℕ) : ℕ :=
  ((List.range n).filter fun j =>
    decide (key j < key i ∨ (key j = key i ∧ j < i))).length

/-- The x coordinate of sample i. -/
def sampleX (samples : List GSample) (i : ℕ) : ℚ := (samples.getD i default).x

/-- The y coordinate of sample i. -/
def sampleY (samples : List GSample) (i : ℕ) : ℚ := (samples.getD i default).y

/-- Outlier trimming of the capture routine: keep the samples whose rank on
the x axis and on the y axis both lie between trimCount (inclusive) and
sampleCount minus trimCount (exclusive). -/
def trimmedSamples (samples : List GSample) : List GSample :=
  ((List.range samples.length).filter fun i =>
    decide (trimCount ≤ stableRank (sampleX samples) samples.length i ∧
      stableRank (sampleX samples) samples.length i < sampleCount - trimCount ∧
      trimCount ≤ stableRank (sampleY samples) samples.length i ∧
      stableRank (sampleY samples) samples.length i < sampleCount - trimCount)).map
    fun i => samples.getD i default

/-- The samples actually averaged: the trimmed set when at least 10 survive
and the full collected set otherwise. -/
def validSamples (samples : List GSample) : List GSample :=
  if 10 ≤ (trimmedSamples samples).length then trimmedSamples samples else samples

/-- Mean x coordinate over the averaged samples. -/
def avgX (samples : List GSample) : ℚ :=
  listMean ((validSamples samples).map GSample.x)

/-- Mean y coordinate over the averaged samples. -/
def avgY (samples : List GSample) : ℚ :=
  listMean ((validSamples samples).map GSample.y)

/-- Mean raw normalized x coordinate over the averaged samples (an absent
component counts as 0, through falsiness in the source). -/
def avgNormX (samples : List GSample) : ℚ :=
  listMean ((validSamples samples).map fun g => g.normalizedX.getD 0)

/-- Mean raw normalized y coordinate over the averaged samples. -/
def avgNormY (samples : List GSample) : ℚ :=
  listMean ((validSamples samples).map fun g => g.normalizedY.getD 0)

/-- Variance of the x coordinates over the averaged samples. -/
def varX (samples : List GSample) : ℚ :=
  listMean ((validSamples samples).map fun g => (g.x - avgX samples) ^ 2)

/-- Variance of the y coordinates over the averaged samples. -/
def varY (samples : List GSample) : ℚ :=
  listMean ((validSamples samples).map fun g => (g.y - avgY samples) ^ 2)

/-- The combined standard deviation stored with the emitted calibration
sample: the square root of the sum of the per-axis variances. -/
noncomputable def sampleStdDev (samples : List GSample) : ℝ :=
  Real.sqrt ((varX samples : ℝ) + (varY samples : ℝ))

/-- Concrete landmark family used by concrete runs: eye corners giving an
average eye width of 0.1 and eyelid points giving an average eye height of
0.04, so the aspect ratio is 0.4. -/
def testLandmarks : ℕ → Point2 := fun i =>
  if i = 33 then ⟨3 / 10, 3 / 10⟩
  else if i = 133 then ⟨4 / 10, 3 / 10⟩
  else if i = 362 then ⟨6 / 10, 3 / 10⟩
  else if i = 263 then ⟨7 / 10, 3 / 10⟩
  else if i = 159 then ⟨35 / 100, 28 / 100⟩
  else if i = 145 then ⟨35 / 100, 32 / 100⟩
  else if i = 386 then ⟨65 / 100, 28 / 100⟩
  else if i = 374 then ⟨65 / 100, 32 / 100⟩
  else ⟨1 / 2, 1 / 2⟩

/-- A concrete valid, non-blink frame. -/
def testFrame : SandboxGazeData :=
  { landmarks := testLandmarks, numLandmarks := 478,
    leftIris := some ⟨35 / 100, 3 / 10⟩, rightIris := some ⟨65 / 100, 3 / 10⟩ }

/-- The same frame with a short landmark list. -/
def shortFrame : SandboxGazeData :=
  { testFrame with numLandmarks := 100 }

/-- A fresh running tracker state. -/
def initialState : TrackerState :=
  { isRunning := true, gazeHistory := [], eyeHeightHistory := [],
    stableEyeHeight := 3 / 100, calibrationMatrix := ⟨1, 1, 0, 0⟩ }

/-- A concrete calibration input whose measured normalized coordinates are
fixed. -/
def cSingle : CalibInput :=
  { actualX := 100, actualY := 100, measuredX := 500, measuredY := 500,
    normalizedX := some (3 / 10), normalizedY := some (3 / 10) }

/-- A concrete affine calibration input. -/
def aSingle : AffineInput :=
  { actualX := 100, actualY := 100, measuredX := 500, measuredY := 500,
    normalizedX := some (3 / 10), normalizedY := some (3 / 10),
    stdDev := some 10 }

/-- A concrete raw gaze sample. -/
def gSampleZero : GSample :=
  { x := 0, y := 0, normalizedX := none, normalizedY := none }

theorem listMean_bounds {l : List ℚ} {lo hi : ℚ} (hne : l ≠ [])
    (h : ∀ x ∈ l, lo ≤ x ∧ x ≤ hi) : lo ≤ listMean l ∧ listMean l ≤ hi := by
  have hlen : 0 < (l.length : ℚ) := by
    exact_mod_cast List.length_pos.mpr hne
  constructor
  · rw [listMean, le_div_iff₀ hlen]
    have := List.card_nsmul_le_sum l lo fun x hx => (h x hx).1
    simpa [nsmul_eq_mul, mul_comm] using this
  · rw [listMean, div_le_iff₀ hlen]
    have := List.sum_le_card_nsmul l hi fun x hx => (h x hx).2
    simpa [nsmul_eq_mul, mul_comm] using this

theorem listMean_const {l : List ℚ} {c : ℚ} (hne : l ≠ [])
    (h : ∀ x ∈ l, x = c) : listMean l = c := by
  have hb := listMean_bounds hne fun x hx => ⟨(h x hx).ge, (h x hx).le⟩
  exact le_antisymm hb.2 hb.1

theorem listMean_replicate {n : ℕ} (hn : n ≠ 0) (c : ℚ) :
    listMean (List.replicate n c) = c := by
  refine listMean_const ?_ fun x hx => List.eq_of_mem_replicate hx
  simp [hn]

theorem pushBounded_ne_nil {α : Type} {w : ℕ} (hw : 1 ≤ w) (hist : List α)
    (v : α) : pushBounded w hist v ≠ [] := by
  rw [pushBounded]
  intro hnil
  by_cases hc : w < (hist ++ [v]).length
  · rw [if_pos hc] at hnil
    have h1 : (hist ++ [v]).tail.length = (hist ++ [v]).length - 1 :=
      List.length_tail _
    rw [hnil] at h1
    simp only [List.length_nil, List.length_append, List.length_cons,
      List.length_nil] at h1 hc
    omega
  · rw [if_neg hc] at hnil
    exact List.append_ne_nil_of_right_ne_nil hist (by simp) hnil

theorem pushBounded_mem {α : Type} {w : ℕ} {hist : List α} {v x : α}
    (hx : x ∈ pushBounded w hist v) : x ∈ hist ∨ x = v := by
  rw [pushBounded] at hx
  have hx2 : x ∈ hist ++ [v] := by
    by_cases hc : w < (hist ++ [v]).length
    · rw [if_pos hc] at hx
      exact List.mem_of_mem_tail hx
    · rwa [if_neg hc] at hx
  rcases List.mem_append.mp hx2 with h | h
  · exact Or.inl h
  · exact Or.inr (List.mem_singleton.mp h)

theorem lastN_mem {α : Type} {n : ℕ} {l : List α} {x : α}
    (hx : x ∈ lastN n l) : x ∈ l :=
  List.mem_of_mem_drop hx

theorem lastN_ne_nil {α : Type} {n : ℕ} (hn : 1 ≤ n) {l : List α}
    (hl : l ≠ []) : lastN n l ≠ [] := by
  rw [lastN]
  intro hnil
  have h1 : (l.drop (l.length - n)).length = l.length - (l.length - n) :=
    List.length_drop _ _
  rw [hnil] at h1
  have h2 : 0 < l.length := List.length_pos.mpr hl
  simp only [List.length_nil] at h1
  omega

theorem pushBounded_iterate_replicate {α : Type} (w : ℕ) (p : α) :
    ∀ k, k ≤ w → ∀ h : List α,
      ∃ t, (fun l => pushBounded w l p)^[k] h = t ++ List.replicate k p := by
  intro k
  induction k with
  | zero => intro _ h; exact ⟨h, by simp⟩
  | succ k ih =>
    intro hk h
    obtain ⟨t, ht⟩ := ih (by omega) h
    rw [Function.iterate_succ_apply', ht]
    rw [pushBounded]
    by_cases hc : w < (t ++ List.replicate k p ++ [p]).length
    · rw [if_pos hc]
      simp only [List.length_append, List.length_replicate,
        List.length_cons, List.length_nil] at hc
      match t, hc with
      | x :: t0, _ =>
        refine ⟨t0, ?_⟩
        simp [List.replicate_succ' k p, List.append_assoc]
      | [], hc0 => simp only [List.length_nil] at hc0; omega
    · rw [if_neg hc]
      exact ⟨t, by simp [List.replicate_succ' k p, List.append_assoc]⟩

theorem smoothed_replicate_suffix_x (t : List Point2) (p : Point2) :
    smoothedX (t ++ List.replicate SMOOTHING_WINDOW_X p) = p.x := by
  rw [smoothedX, lastN]
  have hlen : (t ++ List.replicate SMOOTHING_WINDOW_X p).length =
      t.length + SMOOTHING_WINDOW_X := by simp
  rw [hlen]
  have hd : t.length + SMOOTHING_WINDOW_X - SMOOTHING_WINDOW_X = t.length := by omega
  rw [hd, List.drop_left, List.map_replicate]
  exact listMean_replicate (by decide) p.x

theorem smoothed_replicate_suffix_y (t : List Point2) (p : Point2) :
    smoothedY (t ++ List.replicate SMOOTHING_WINDOW_Y p) = p.y := by
  rw [smoothedY, lastN]
  have hlen : (t ++ List.replicate SMOOTHING_WINDOW_Y p).length =
      t.length + SMOOTHING_WINDOW_Y := by simp
  rw [hlen]
  have hd : t.length + SMOOTHING_WINDOW_Y - SMOOTHING_WINDOW_Y = t.length := by omega
  rw [hd, List.drop_left, List.map_replicate]
  exact listMean_replicate (by decide) p.y

/-- C5: the temporal smoother averages the most recent 8 buffered points on
the X axis and the most recent 4 on the Y axis, with the X window strictly
larger; feeding the same clamped screen point into the smoothing buffer for
8 (respectively 4) consecutive valid frames makes the smoothed X
(respectively Y) output equal that constant exactly. -/
theorem smoothing_windows_and_constant_input (h : List Point2) (p : Point2) :
    SMOOTHING_WINDOW_X = 8 ∧ SMOOTHING_WINDOW_Y = 4 ∧
    SMOOTHING_WINDOW_Y < SMOOTHING_WINDOW_X ∧
    smoothedX ((fun l => pushBounded (max SMOOTHING_WINDOW_X SMOOTHING_WINDOW_Y) l p)^[SMOOTHING_WINDOW_X] h) = p.x ∧
    smoothedY ((fun l => pushBounded (max SMOOTHING_WINDOW_X SMOOTHING_WINDOW_Y) l p)^[SMOOTHING_WINDOW_Y] h) = p.y := by
  refine ⟨rfl, rfl, by decide, ?_, ?_⟩
  · obtain ⟨t, ht⟩ := pushBounded_iterate_replicate
      (max SMOOTHING_WINDOW_X SMOOTHING_WINDOW_Y) p SMOOTHING_WINDOW_X (by decide) h
    rw [ht]
    exact smoothed_replicate_suffix_x t p
  · obtain ⟨t, ht⟩ := pushBounded_iterate_replicate
      (max SMOOTHING_WINDOW_X SMOOTHING_WINDOW_Y) p SMOOTHING_WINDOW_Y (by decide) h
    rw [ht]
    exact smoothed_replicate_suffix_y t p

/-- C8: calling applyCalibration with an empty sample array is a no-op in
both fitter variants: the linear variant keeps the active transform and the
affine variant keeps both the transform and the calibrated flag. -/
theorem applyCalibration_empty_noop (sw sh : ℚ) (m : LinearCalib)
    (st : AffineState) :
    applyCalibration sw sh [] m = m ∧
    applyCalibrationAffine sw sh [] st = st :=
  ⟨rfl, rfl⟩

/-- C4 counterexample: the default transform does not map normalized
x = -0.6 to screen x = 0; at screen width 1536 it maps it to -768. -/
theorem defaultCalibration_not_zero_at_minus_point_six :
    (applyAffineMap (defaultCalibration 1536 864) (-(6 / 10)) 0).1 = -768 ∧
    ((-768 : ℚ) ≠ 0) := by
  constructor
  · norm_num [applyAffineMap, defaultCalibration]
  · norm_num

/-- C4 amended: the default transform is the fixed linear mapping under
which the nominal normalized-gaze span of 0.6 (that is, -0.3 to 0.3) fills
the screen and normalized gaze (0, 0) maps to the screen center: it sends
normalized x = -0.3 and x = 0.3 to screen x = 0 and screen width
respectively, likewise for y with the screen height. -/
theorem defaultCalibration_nominal_range_fills_screen (sw sh x y : ℚ) :
    (applyAffineMap (defaultCalibration sw sh) (-(3 / 10)) y).1 = 0 ∧
    (applyAffineMap (defaultCalibration sw sh) (3 / 10) y).1 = sw ∧
    (applyAffineMap (defaultCalibration sw sh) x (-(3 / 10))).2 = 0 ∧
    (applyAffineMap (defaultCalibration sw sh) x (3 / 10)).2 = sh ∧
    applyAffineMap (defaultCalibration sw sh) 0 0 = (sw / 2, sh / 2) := by
  simp only [applyAffineMap, defaultCalibration, Prod.mk.injEq]
  refine ⟨by ring, by ring, by ring, by ring, by ring, by ring⟩

theorem handleGazeData_drop (s : TrackerState) (d : SandboxGazeData)
    (sw sh : ℚ)
    (hdrop : d.numLandmarks < 478 ∨ d.leftIris = none ∨ d.rightIris = none ∨
      aspectRatio d < 15 / 100) :
    handleGazeData s d sw sh = (s, none) := by
  rw [handleGazeData]
  by_cases hrun : s.isRunning
  · rw [hrun]
    simp only [Bool.not_true, Bool.false_eq_true, if_false]
    by_cases hn : d.numLandmarks < 478
    · rw [if_pos hn]
    · rw [if_neg hn]
      cases hl : d.leftIris with
      | none => rfl
      | some li =>
        cases hr : d.rightIris with
        | none => rfl
        | some ri =>
          have ha : aspectRatio d < 15 / 100 := by
            rcases hdrop with h | h | h | h
            · exact absurd h hn
            · rw [hl] at h; cases h
            · rw [hr] at h; cases h
            · exact h
          simp only [if_pos ha]
  · simp only [Bool.not_eq_true] at hrun
    rw [hrun]
    rfl

theorem handleGazeData_emit (s : TrackerState) (d : SandboxGazeData)
    (sw sh : ℚ) {li ri : Point2} (hrun : s.isRunning = true)
    (hl : d.leftIris = some li) (hr : d.rightIris = some ri)
    (hn : ¬d.numLandmarks < 478) (ha : ¬aspectRatio d < 15 / 100) :
    handleGazeData s d sw sh =
      ({ s with
          gazeHistory := pushBounded (max SMOOTHING_WINDOW_X SMOOTHING_WINDOW_Y)
            s.gazeHistory
            ⟨clampQ 0 sw (toScreen s.calibrationMatrix sw sh
                (avgIrisOffsetX d li ri) (avgIrisOffsetY d li ri)).1,
             clampQ 0 sh (toScreen s.calibrationMatrix sw sh
                (avgIrisOffsetX d li ri) (avgIrisOffsetY d li ri)).2⟩,
          eyeHeightHistory := pushBounded EYE_HEIGHT_WINDOW s.eyeHeightHistory
            (currentEyeHeight d),
          stableEyeHeight := listMean (pushBounded EYE_HEIGHT_WINDOW
            s.eyeHeightHistory (currentEyeHeight d)) },
       some (gazePointOf
         (pushBounded (max SMOOTHING_WINDOW_X SMOOTHING_WINDOW_Y) s.gazeHistory
           ⟨clampQ 0 sw (toScreen s.calibrationMatrix sw sh
               (avgIrisOffsetX d li ri) (avgIrisOffsetY d li ri)).1,
            clampQ 0 sh (toScreen s.calibrationMatrix sw sh
               (avgIrisOffsetX d li ri) (avgIrisOffsetY d li ri)).2⟩)
         (avgIrisOffsetX d li ri) (avgIrisOffsetY d li ri))) := by
  rw [handleGazeData, hrun]
  simp only [Bool.not_true, Bool.false_eq_true, if_false, if_neg hn, hl, hr,
    if_neg ha]

/-- C1: for a running tracker, a frame with at least 478 landmarks, both
iris points present and eye aspect ratio at least 0.15 makes handleGazeData
emit exactly one GazePoint; a frame with fewer than 478 landmarks, a
missing iris point or aspect ratio below 0.15 emits none and leaves both
the gaze smoothing history and the eye height history unchanged. -/
theorem handleGazeData_frame_validation (s : TrackerState)
    (d : SandboxGazeData) (sw sh : ℚ) (hrun : s.isRunning = true) :
    ((478 ≤ d.numLandmarks ∧ d.leftIris.isSome ∧ d.rightIris.isSome ∧
        15 / 100 ≤ aspectRatio d) →
      (handleGazeData s d sw sh).2.isSome = true) ∧
    ((d.numLandmarks < 478 ∨ d.leftIris = none ∨ d.rightIris = none ∨
        aspectRatio d < 15 / 100) →
      (handleGazeData s d sw sh).2 = none ∧
      (handleGazeData s d sw sh).1.gazeHistory = s.gazeHistory ∧
      (handleGazeData s d sw sh).1.eyeHeightHistory = s.eyeHeightHistory) := by
  constructor
  · rintro ⟨hn, hli, hri, ha⟩
    obtain ⟨li, hl⟩ := Option.isSome_iff_exists.mp hli
    obtain ⟨ri, hr⟩ := Option.isSome_iff_exists.mp hri
    rw [handleGazeData_emit s d sw sh hrun hl hr (by omega) (not_lt.mpr ha)]
    rfl
  · intro hdrop
    rw [handleGazeData_drop s d sw sh hdrop]
    exact ⟨rfl, rfl, rfl⟩

/-- C1 witness: a concrete valid frame yields an emitted point and a
concrete short frame yields none. -/
theorem handleGazeData_frame_validation_witness :
    (handleGazeData initialState testFrame 1920 1080).2.isSome = true ∧
    (handleGazeData initialState shortFrame 1920 1080).2 = none := by
  constructor
  · exact (handleGazeData_frame_validation initialState testFrame 1920 1080
      rfl).1 ⟨by norm_num [testFrame], rfl, rfl,
        by norm_num [aspectRatio, currentEyeHeight, avgEyeWidth, leftEyeHeight,
          rightEyeHeight, leftEyeWidth, rightEyeWidth, testFrame, testLandmarks,
          abs_of_pos]⟩
  · exact ((handleGazeData_frame_validation initialState shortFrame 1920 1080
      rfl).2 (Or.inl (by norm_num [shortFrame, testFrame]))).1

/-- C9: whenever the gaze history holds only points inside the screen
bounds, every GazePoint handleGazeData emits lies in the closed box from
(0, 0) to (screen width, screen height), and the updated history again
holds only points inside the bounds: each per-frame screen point is
clamped before entering the smoothing buffer and the emitted coordinates
are means over buffered clamped points. -/
theorem gaze_output_in_bounds (s : TrackerState) (d : SandboxGazeData)
    (sw sh : ℚ) (hsw : 0 ≤ sw) (hsh : 0 ≤ sh)
    (hhist : ∀ p ∈ s.gazeHistory, 0 ≤ p.x ∧ p.x ≤ sw ∧ 0 ≤ p.y ∧ p.y ≤ sh) :
    (∀ gp : GazePoint, (handleGazeData s d sw sh).2 = some gp →
      0 ≤ gp.x ∧ gp.x ≤ sw ∧ 0 ≤ gp.y ∧ gp.y ≤ sh) ∧
    (∀ p ∈ (handleGazeData s d sw sh).1.gazeHistory,
      0 ≤ p.x ∧ p.x ≤ sw ∧ 0 ≤ p.y ∧ p.y ≤ sh) := by
  by_cases hrun : s.isRunning = true
  case neg =>
    have heq : handleGazeData s d sw sh = (s, none) := by
      rw [handleGazeData]
      simp only [Bool.not_eq_true] at hrun
      rw [hrun]
      rfl
    rw [heq]
    exact ⟨(fun gp hgp => nomatch hgp), hhist⟩
  case pos =>
  by_cases hn : d.numLandmarks < 478
  case pos =>
    rw [handleGazeData_drop s d sw sh (Or.inl hn)]
    exact ⟨(fun gp hgp => nomatch hgp), hhist⟩
  case neg =>
  cases hl : d.leftIris with
  | none =>
    rw [handleGazeData_drop s d sw sh (Or.inr (Or.inl hl))]
    exact ⟨(fun gp hgp => nomatch hgp), hhist⟩
  | some li =>
  cases hr : d.rightIris with
  | none =>
    rw [handleGazeData_drop s d sw sh (Or.inr (Or.inr (Or.inl hr)))]
    exact ⟨(fun gp hgp => nomatch hgp), hhist⟩
  | some ri =>
  by_cases ha : aspectRatio d < 15 / 100
  case pos =>
    rw [handleGazeData_drop s d sw sh (Or.inr (Or.inr (Or.inr ha)))]
    exact ⟨(fun gp hgp => nomatch hgp), hhist⟩
  case neg =>
  rw [handleGazeData_emit s d sw sh hrun hl hr hn ha]
  set g : Point2 :=
    ⟨clampQ 0 sw (toScreen s.calibrationMatrix sw sh
        (avgIrisOffsetX d li ri) (avgIrisOffsetY d li ri)).1,
     clampQ 0 sh (toScreen s.calibrationMatrix sw sh
        (avgIrisOffsetX d li ri) (avgIrisOffsetY d li ri)).2⟩ with hg
  have hgbound : 0 ≤ g.x ∧ g.x ≤ sw ∧ 0 ≤ g.y ∧ g.y ≤ sh := by
    rw [hg]
    refine ⟨le_max_left _ _, max_le hsw (min_le_left _ _),
      le_max_left _ _, max_le hsh (min_le_left _ _)⟩
  set hist := pushBounded (max SMOOTHING_WINDOW_X SMOOTHING_WINDOW_Y)
    s.gazeHistory g with hhistdef
  have hmem : ∀ p ∈ hist, 0 ≤ p.x ∧ p.x ≤ sw ∧ 0 ≤ p.y ∧ p.y ≤ sh := by
    intro p hp
    rcases pushBounded_mem hp with h | h
    · exact hhist p h
    · rw [h]; exact hgbound
  have hne : hist ≠ [] := pushBounded_ne_nil (by decide) s.gazeHistory g
  constructor
  · intro gp hgp
    have hgpe : gazePointOf hist
        (avgIrisOffsetX d li ri) (avgIrisOffsetY d li ri) = gp :=
      Option.some.inj hgp
    rw [← hgpe, gazePointOf]
    have hx : 0 ≤ smoothedX hist ∧ smoothedX hist ≤ sw := by
      rw [smoothedX]
      refine listMean_bounds ?_ ?_
      · simp only [ne_eq, List.map_eq_nil_iff]
        exact lastN_ne_nil (by decide) hne
      · intro x hx
        obtain ⟨p, hp, hpx⟩ := List.mem_map.mp hx
        have := hmem p (lastN_mem hp)
        rw [← hpx]
        exact ⟨this.1, this.2.1⟩
    have hy : 0 ≤ smoothedY hist ∧ smoothedY hist ≤ sh := by
      rw [smoothedY]
      refine listMean_bounds ?_ ?_
      · simp only [ne_eq, List.map_eq_nil_iff]
        exact lastN_ne_nil (by decide) hne
      · intro y hy
        obtain ⟨p, hp, hpy⟩ := List.mem_map.mp hy
        have := hmem p (lastN_mem hp)
        rw [← hpy]
        exact ⟨this.2.2.1, this.2.2.2⟩
    exact ⟨hx.1, hx.2, hy.1, hy.2⟩
  · exact hmem

/-- C9 witness: one valid frame processed from the empty history emits a
point inside a 1920 by 1080 screen. -/
theorem gaze_output_in_bounds_witness :
    ∃ gp : GazePoint,
      (handleGazeData initialState testFrame 1920 1080).2 = some gp ∧
      0 ≤ gp.x ∧ gp.x ≤ 1920 ∧ 0 ≤ gp.y ∧ gp.y ≤ 1080 := by
  have hmain := gaze_output_in_bounds initialState testFrame 1920 1080
    (by norm_num) (by norm_num) (by intro p hp; simp [initialState] at hp)
  have he := handleGazeData_emit initialState testFrame 1920 1080 rfl rfl rfl
    (by norm_num [testFrame])
    (by norm_num [aspectRatio, currentEyeHeight, avgEyeWidth, leftEyeHeight,
      rightEyeHeight, leftEyeWidth, rightEyeWidth, testFrame, testLandmarks,
      abs_of_pos])
  obtain ⟨gp, hgp⟩ : ∃ gp,
      (handleGazeData initialState testFrame 1920 1080).2 = some gp := by
    rw [he]
    exact ⟨_, rfl⟩
  exact ⟨gp, hgp, hmain.1 gp hgp⟩

/-- Two concrete calibration inputs with distinct measured x and y
values. -/
def cPairA : CalibInput :=
  { actualX := 0, actualY := 0, measuredX := 0, measuredY := 0,
    normalizedX := some (-(3 / 10)), normalizedY := some (-(3 / 10)) }

/-- Companion to cPairA. -/
def cPairB : CalibInput :=
  { actualX := 1000, actualY := 1000, measuredX := 0, measuredY := 0,
    normalizedX := some (3 / 10), normalizedY := some (3 / 10) }

/-- C2 counterexample: on a single-sample list the linear applyCalibration
does not install the least-squares ratio (whose denominator vanishes); it
installs scale 1.0 instead, while the ratio of the claim evaluates to 0. -/
theorem applyCalibration_single_sample_not_formula :
    (applyCalibration 1000 1000 [cSingle] ⟨1, 1, 0, 0⟩).scaleX ≠
      numeratorX (normalizePoints 1000 1000 [cSingle]) /
        denominatorX (normalizePoints 1000 1000 [cSingle]) := by
  norm_num [applyCalibration, normalizePoints, numeratorX, denominatorX,
    meanMeasuredX, meanActualX, listMean, cSingle]

/-- C2 amended: for every non-empty sample list whose per-axis denominators
over the mean-centered normalized measurements are nonzero, the linear
applyCalibration computes, independently per axis, the least-squares scale
as the ratio of the centered cross sum to the centered square sum and the
offset as the actual mean minus the scale times the measured mean, and
installs these four values. -/
theorem applyCalibration_least_squares (sw sh : ℚ) (points : List CalibInput)
    (m : LinearCalib) (hne : points.length ≠ 0)
    (hdx : denominatorX (normalizePoints sw sh points) ≠ 0)
    (hdy : denominatorY (normalizePoints sw sh points) ≠ 0) :
    applyCalibration sw sh points m =
      { scaleX := numeratorX (normalizePoints sw sh points) /
          denominatorX (normalizePoints sw sh points),
        scaleY := numeratorY (normalizePoints sw sh points) /
          denominatorY (normalizePoints sw sh points),
        offsetX := meanActualX (normalizePoints sw sh points) -
          numeratorX (normalizePoints sw sh points) /
            denominatorX (normalizePoints sw sh points) *
            meanMeasuredX (normalizePoints sw sh points),
        offsetY := meanActualY (normalizePoints sw sh points) -
          numeratorY (normalizePoints sw sh points) /
            denominatorY (normalizePoints sw sh points) *
            meanMeasuredY (normalizePoints sw sh points) } := by
  rw [applyCalibration, if_neg hne]
  simp only [if_pos hdx, if_pos hdy]

/-- C2 witness: a concrete two-sample fit where both denominators are
nonzero. -/
theorem applyCalibration_least_squares_witness :
    applyCalibration 1000 1000 [cPairA, cPairB] ⟨1, 1, 0, 0⟩ =
      { scaleX := numeratorX (normalizePoints 1000 1000 [cPairA, cPairB]) /
          denominatorX (normalizePoints 1000 1000 [cPairA, cPairB]),
        scaleY := numeratorY (normalizePoints 1000 1000 [cPairA, cPairB]) /
          denominatorY (normalizePoints 1000 1000 [cPairA, cPairB]),
        offsetX := meanActualX (normalizePoints 1000 1000 [cPairA, cPairB]) -
          numeratorX (normalizePoints 1000 1000 [cPairA, cPairB]) /
            denominatorX (normalizePoints 1000 1000 [cPairA, cPairB]) *
            meanMeasuredX (normalizePoints 1000 1000 [cPairA, cPairB]),
        offsetY := meanActualY (normalizePoints 1000 1000 [cPairA, cPairB]) -
          numeratorY (normalizePoints 1000 1000 [cPairA, cPairB]) /
            denominatorY (normalizePoints 1000 1000 [cPairA, cPairB]) *
            meanMeasuredY (normalizePoints 1000 1000 [cPairA, cPairB]) } :=
  applyCalibration_least_squares 1000 1000 [cPairA, cPairB] ⟨1, 1, 0, 0⟩
    (by norm_num)
    (by norm_num [denominatorX, normalizePoints, meanMeasuredX, listMean,
      cPairA, cPairB])
    (by norm_num [denominatorY, normalizePoints, meanMeasuredY, listMean,
      cPairA, cPairB])

/-- C10: in the linear applyCalibration, a vanishing per-axis denominator
(in particular when all measured values on that axis are equal, including
the single-sample case) skips the division: that axis gets scale 1.0 and
offset equal to the actual mean minus the measured mean.  Over the rational
model every installed component is a well-defined finite rational. -/
theorem applyCalibration_zero_denominator (sw sh : ℚ)
    (points : List CalibInput) (m : LinearCalib) (hne : points.length ≠ 0) :
    (denominatorX (normalizePoints sw sh points) = 0 →
      (applyCalibration sw sh points m).scaleX = 1 ∧
      (applyCalibration sw sh points m).offsetX =
        meanActualX (normalizePoints sw sh points) -
          meanMeasuredX (normalizePoints sw sh points)) ∧
    (denominatorY (normalizePoints sw sh points) = 0 →
      (applyCalibration sw sh points m).scaleY = 1 ∧
      (applyCalibration sw sh points m).offsetY =
        meanActualY (normalizePoints sw sh points) -
          meanMeasuredY (normalizePoints sw sh points)) ∧
    (∀ c : ℚ, (∀ p ∈ normalizePoints sw sh points, p.measuredX = c) →
      denominatorX (normalizePoints sw sh points) = 0) := by
  refine ⟨?_, ?_, ?_⟩
  · intro h
    rw [applyCalibration, if_neg hne]
    simp only [if_neg (not_not_intro h)]
    exact ⟨trivial, by rw [one_mul]⟩
  · intro h
    rw [applyCalibration, if_neg hne]
    simp only [if_neg (not_not_intro h)]
    exact ⟨trivial, by rw [one_mul]⟩
  · intro c hc
    have hnp : normalizePoints sw sh points ≠ [] := by
      intro hcon
      apply hne
      have := congrArg List.length hcon
      rwa [normalizePoints, List.length_map, List.length_nil] at this
    have hmean : meanMeasuredX (normalizePoints sw sh points) = c := by
      rw [meanMeasuredX]
      refine listMean_const (by simpa using hnp) ?_
      intro x hx
      obtain ⟨p, hp, hpx⟩ := List.mem_map.mp hx
      rw [← hpx]
      exact hc p hp
    rw [denominatorX]
    refine List.sum_eq_zero ?_
    intro x hx
    obtain ⟨p, hp, hpx⟩ := List.mem_map.mp hx
    rw [← hpx, hmean, hc p hp]
    ring

/-- C10 witness: the single-sample case has a vanishing x denominator and
installs scale 1.0. -/
theorem applyCalibration_zero_denominator_witness :
    (applyCalibration 1000 1000 [cSingle] ⟨1, 1, 0, 0⟩).scaleX = 1 :=
  ((applyCalibration_zero_denominator 1000 1000 [cSingle] ⟨1, 1, 0, 0⟩
      (by norm_num)).1
    (by norm_num [denominatorX, normalizePoints, meanMeasuredX, listMean,
      cSingle])).1

theorem real_sqrt_gt_iff {s m : ℚ} (hm : 0 ≤ m) :
    (m : ℝ) < Real.sqrt (s : ℝ) ↔ m ^ 2 < s := by
  rw [Real.lt_sqrt (by exact_mod_cast hm)]
  exact_mod_cast Iff.rfl

theorem real_sqrt_lt_iff {s mn : ℚ} (hmn : 0 < mn) :
    Real.sqrt (s : ℝ) < (mn : ℝ) ↔ s < mn ^ 2 := by
  rw [Real.sqrt_lt' (by exact_mod_cast hmn)]
  exact_mod_cast Iff.rfl

theorem applyCalibrationAffine_ne_nil (sw sh : ℚ) (points : List AffineInput)
    (st : AffineState) (hlen : points.length ≠ 0) :
    applyCalibrationAffine sw sh points st =
      (if (goodPoints points).length < 4 then useDefaultCalibration sw sh st
       else if |detA (affineData (goodPoints points))| < 1 / 10 ^ 10 then
         useDefaultCalibration sw sh st
       else if coefA (affineData (goodPoints points)) *
             coefA (affineData (goodPoints points)) +
             coefC (affineData (goodPoints points)) *
             coefC (affineData (goodPoints points)) > MAX_SCALE sw ^ 2 ∨
           coefA (affineData (goodPoints points)) *
             coefA (affineData (goodPoints points)) +
             coefC (affineData (goodPoints points)) *
             coefC (affineData (goodPoints points)) < MIN_SCALE sw ^ 2 then
         useDefaultCalibration sw sh st
       else if |coefD (affineData (goodPoints points))| > MAX_SCALE sw ∨
           |coefD (affineData (goodPoints points))| < MIN_SCALE sw then
         useDefaultCalibration sw sh st
       else
         { matrix :=
             { a := coefA (affineData (goodPoints points)),
               b := coefB (affineData (goodPoints points)),
               c := coefC (affineData (goodPoints points)),
               d := coefD (affineData (goodPoints points)),
               tx := coefTx (affineData (goodPoints points)),
               ty := coefTy (affineData (goodPoints points)) },
           isCalibrated := true }) := by
  rw [applyCalibrationAffine, if_neg hlen]

/-- C3: for every non-empty input to the affine applyCalibration, if fewer
than 4 samples survive the stdDev outlier filter, or the normal-equations
determinant is below 1e-10 in absolute value, or the fitted effective scale
(the square root of the sum of the squares of a and c for X, the absolute
value of d for Y) falls outside the closed range from 0.2 times to 3 times
screenWidth / 0.6, then the fitted matrix is discarded and the default
transform is installed instead; the embedding is a total function, so no
exception can be thrown. -/
theorem affine_fit_guards_install_default (sw sh : ℚ)
    (points : List AffineInput) (st : AffineState) (hne : points ≠ [])
    (hsw : 0 < sw) :
    ((goodPoints points).length < 4 →
      applyCalibrationAffine sw sh points st = useDefaultCalibration sw sh st) ∧
    (|detA (affineData (goodPoints points))| < 1 / 10 ^ 10 →
      applyCalibrationAffine sw sh points st = useDefaultCalibration sw sh st) ∧
    ((Real.sqrt ((coefA (affineData (goodPoints points)) : ℝ) ^ 2 +
          (coefC (affineData (goodPoints points)) : ℝ) ^ 2) >
        (MAX_SCALE sw : ℝ) ∨
      Real.sqrt ((coefA (affineData (goodPoints points)) : ℝ) ^ 2 +
          (coefC (affineData (goodPoints points)) : ℝ) ^ 2) <
        (MIN_SCALE sw : ℝ) ∨
      |coefD (affineData (goodPoints points))| > MAX_SCALE sw ∨
      |coefD (affineData (goodPoints points))| < MIN_SCALE sw) →
      applyCalibrationAffine sw sh points st = useDefaultCalibration sw sh st) := by
  have hlen : points.length ≠ 0 := fun h => hne (List.length_eq_zero.mp h)
  have hmax : 0 < MAX_SCALE sw := by
    rw [MAX_SCALE, expectedScale]
    positivity
  have hmin : 0 < MIN_SCALE sw := by
    rw [MIN_SCALE, expectedScale]
    positivity
  have hred := applyCalibrationAffine_ne_nil sw sh points st hlen
  have hb1 : (goodPoints points).length < 4 →
      applyCalibrationAffine sw sh points st = useDefaultCalibration sw sh st := by
    intro h4
    rw [hred, if_pos h4]
  have hb2 : |detA (affineData (goodPoints points))| < 1 / 10 ^ 10 →
      applyCalibrationAffine sw sh points st = useDefaultCalibration sw sh st := by
    intro hdet
    by_cases h4 : (goodPoints points).length < 4
    · exact hb1 h4
    · rw [hred, if_neg h4, if_pos hdet]
  refine ⟨hb1, hb2, ?_⟩
  intro hsc
  by_cases h4 : (goodPoints points).length < 4
  · exact hb1 h4
  by_cases hdet : |detA (affineData (goodPoints points))| < 1 / 10 ^ 10
  · exact hb2 hdet
  have hcast : (((coefA (affineData (goodPoints points)) *
        coefA (affineData (goodPoints points)) +
        coefC (affineData (goodPoints points)) *
        coefC (affineData (goodPoints points))) : ℚ) : ℝ) =
      (coefA (affineData (goodPoints points)) : ℝ) ^ 2 +
        (coefC (affineData (goodPoints points)) : ℝ) ^ 2 := by
    push_cast
    ring
  rcases hsc with hgt | hlt | hd
  · have hq : MAX_SCALE sw ^ 2 <
        coefA (affineData (goodPoints points)) *
          coefA (affineData (goodPoints points)) +
          coefC (affineData (goodPoints points)) *
          coefC (affineData (goodPoints points)) := by
      rw [← real_sqrt_gt_iff hmax.le, hcast]
      exact hgt
    rw [hred, if_neg h4, if_neg hdet, if_pos (Or.inl hq)]
  · have hq : coefA (affineData (goodPoints points)) *
        coefA (affineData (goodPoints points)) +
        coefC (affineData (goodPoints points)) *
        coefC (affineData (goodPoints points)) < MIN_SCALE sw ^ 2 := by
      rw [← real_sqrt_lt_iff hmin, hcast]
      exact hlt
    rw [hred, if_neg h4, if_neg hdet, if_pos (Or.inr hq)]
  · by_cases hxscale : coefA (affineData (goodPoints points)) *
        coefA (affineData (goodPoints points)) +
        coefC (affineData (goodPoints points)) *
        coefC (affineData (goodPoints points)) > MAX_SCALE sw ^ 2 ∨
        coefA (affineData (goodPoints points)) *
          coefA (affineData (goodPoints points)) +
          coefC (affineData (goodPoints points)) *
          coefC (affineData (goodPoints points)) < MIN_SCALE sw ^ 2
    · rw [hred, if_neg h4, if_neg hdet, if_pos hxscale]
    · rw [hred, if_neg h4, if_neg hdet, if_neg hxscale, if_pos hd]

/-- C3 witness: a concrete single-sample input fails the minimum sample
requirement and installs the default transform. -/
theorem affine_fit_guards_install_default_witness :
    applyCalibrationAffine 1536 864 [aSingle] ⟨⟨1, 0, 0, 1, 0, 0⟩, false⟩ =
      useDefaultCalibration 1536 864 ⟨⟨1, 0, 0, 1, 0, 0⟩, false⟩ :=
  (affine_fit_guards_install_default 1536 864 [aSingle]
      ⟨⟨1, 0, 0, 1, 0, 0⟩, false⟩ (by simp) (by norm_num)).1
    (by norm_num [goodPoints, aSingle, MAX_STDDEV])

/-- C7 counterexample: the validation targets are not all distinct from the
calibration grid: at a 1000 by 1000 screen the center validation target
(500, 500) is also a calibration grid point. -/
theorem validation_center_shared_with_grid :
    (⟨500, 500⟩ : Point2) ∈ validationPoints 1000 1000 ∧
    (⟨500, 500⟩ : Point2) ∈ generateCalibrationGrid 1000 1000 := by
  constructor
  · have h : (⟨1000 * (5 / 10), 1000 * (5 / 10)⟩ : Point2) ∈
        validationPoints 1000 1000 := by
      simp [validationPoints]
    norm_num at h
    simpa using h
  · have h : (⟨1000 * (5 / 10), 1000 * (5 / 10)⟩ : Point2) ∈
        generateCalibrationGrid 1000 1000 := by
      simp [generateCalibrationGrid]
    norm_num at h
    simpa using h

/-- C7 amended: runValidation measures one gaze point per validation target
(5 targets, four of which are distinct from the calibration grid while the
center target coincides with the grid center), computes each error as the
Euclidean pixel distance between measured point and target, reports the
average error as the arithmetic mean of the 5 errors and success exactly
when that average is below 100; when every measured point equals its target
offset by one fixed vector, the average error equals that vector's
magnitude. -/
theorem runValidation_fixed_offset (w h : ℚ) (v : Point2)
    (capture : Point2 → Point2)
    (hcap : ∀ p ∈ validationPoints w h, capture p = ⟨p.x + v.x, p.y + v.y⟩) :
    (validationPoints w h).length = 5 ∧
    runValidationAvgError w h capture =
      Real.sqrt ((v.x : ℝ) ^ 2 + (v.y : ℝ) ^ 2) ∧
    (runValidationSuccess w h capture ↔
      Real.sqrt ((v.x : ℝ) ^ 2 + (v.y : ℝ) ^ 2) < 100) := by
  have herr : ∀ p ∈ validationPoints w h,
      validationError p (capture p) =
        Real.sqrt ((v.x : ℝ) ^ 2 + (v.y : ℝ) ^ 2) := by
    intro p hp
    rw [hcap p hp, validationError]
    congr 1
    push_cast
    ring
  have hmain : runValidationAvgError w h capture =
      Real.sqrt ((v.x : ℝ) ^ 2 + (v.y : ℝ) ^ 2) := by
    rw [runValidationAvgError]
    have hmap : (validationPoints w h).map
        (fun p => validationError p (capture p)) =
        List.replicate 5 (Real.sqrt ((v.x : ℝ) ^ 2 + (v.y : ℝ) ^ 2)) := by
      rw [show (5 : ℕ) = (validationPoints w h).length from rfl]
      exact List.map_eq_replicate_iff.mpr herr
    rw [hmap]
    simp [List.sum_replicate]
    ring
  exact ⟨rfl, hmain, by rw [runValidationSuccess, hmain]⟩

/-- C7 witness: with every measured point offset from its target by the
vector (3, 4) the reported average error is 5. -/
theorem runValidation_fixed_offset_witness :
    runValidationAvgError 1000 1000 (fun p => ⟨p.x + 3, p.y + 4⟩) = 5 := by
  have hthm := runValidation_fixed_offset 1000 1000 ⟨3, 4⟩
    (fun p => ⟨p.x + 3, p.y + 4⟩) (fun p _ => rfl)
  rw [hthm.2.1]
  rw [show ((3 : ℚ) : ℝ) ^ 2 + ((4 : ℚ) : ℝ) ^ 2 = 25 by norm_num]
  rw [show (25 : ℝ) = 5 ^ 2 by norm_num, Real.sqrt_sq (by norm_num)]

/-- C6: the per-point capture routine ranks the 50 collected samples on
each axis and drops the ones ranked in the bottom or the top 10 percent
(5 of 50) on either axis; when fewer than 10 samples survive the trimming
it uses all 50 collected samples instead, so the averaged set never has
fewer than 10 samples; the emitted measured coordinates are means over the
surviving samples and the stored stdDev is the square root of the sum of
the per-axis variances over those same samples. -/
theorem capture_trimming (samples : List GSample)
    (h50 : samples.length = sampleCount) :
    trimCount = 5 ∧ sampleCount - trimCount = 45 ∧
    10 ≤ (validSamples samples).length ∧
    (validSamples samples = trimmedSamples samples ∨
      validSamples samples = samples) ∧
    avgX samples = listMean ((validSamples samples).map GSample.x) ∧
    avgY samples = listMean ((validSamples samples).map GSample.y) ∧
    sampleStdDev samples =
      Real.sqrt ((varX samples : ℝ) + (varY samples : ℝ)) := by
  refine ⟨by norm_num [trimCount, sampleCount],
    by norm_num [trimCount, sampleCount], ?_, ?_, rfl, rfl, rfl⟩
  · rw [validSamples]
    by_cases hc : 10 ≤ (trimmedSamples samples).length
    · rwa [if_pos hc]
    · rw [if_neg hc, h50]
      norm_num [sampleCount]
  · rw [validSamples]
    by_cases hc : 10 ≤ (trimmedSamples samples).length
    · rw [if_pos hc]
      exact Or.inl rfl
    · rw [if_neg hc]
      exact Or.inr rfl

/-- C6 witness: a concrete run over 50 identical samples keeps at least 10
samples in the averaged set. -/
theorem capture_trimming_witness :
    10 ≤ (validSamples (List.replicate 50 gSampleZero)).length :=
  (capture_trimming (List.replicate 50 gSampleZero)
    (by simp [sampleCount])).2.2.1

end ReaRead
